import Mathlib

/-!
Verification of the memmapfs memory-mapped file engine (absfs/memmapfs).

This file gives a shallow embedding of the per-file mapping engine:
the `MappedFile` state (file.go), its I/O surface (Read, ReadAt, Write,
WriteAt, Seek, Sync, Close), the sliding-window machinery (`slideWindow`,
`ensureInWindow`, `fileOffsetToWindowOffset`), the Linux mapping primitive's
observable behavior (`msync`, `munmap`, `mmap` from mmap_linux.go), and the
periodic `syncManager` (sync.go).

Modelling conventions:
- Go `int64` fields become `Int`; byte buffers become `List Nat`.
- The mapped view of MAP_SHARED mappings aliases the OS page cache of the
  backing file.  The model therefore keeps a single byte sequence
  `contents` (the page cache / file bytes); a read or write through the
  window at window-relative offset `r` touches `contents` at absolute file
  offset `windowOffset + r`.  Copy-on-write (MAP_PRIVATE) mappings, whose
  view is a private copy, are excluded by the well-formedness predicate.
- The pointer slices `mf.data` and `mf.mmapData` are modelled by the
  observable facts the code branches on: `dataLen` is `some l` with `l`
  the slice length when `data != nil`, and `none` when `data == nil`;
  `mmapData` is `true` iff the `mmapData` slice is non-nil.
- Syscalls issued by the mapping primitive are recorded as an event trace,
  so that "a synchronous flush was issued" is an inspectable fact:
  `msync` emits `.flush .sync` for `MS_SYNC`, `.flush .async` for
  `MS_ASYNC`, and nothing when it elides the syscall.
- Syscall failures that no claim exercises (msync, munmap failing) are not
  modelled; the fallibility of re-establishing a mapping during a window
  slide is modelled by the oracle parameter `est` (`true` = the `mmap`
  call succeeds) because a claim is about exactly that failure.
- Paths that delegate to the underlying (unmapped) file are modelled as a
  distinguished `.delegated` outcome; no claim is about unmapped files.
-/

namespace Memmapfs

/-- Go byte slices are modelled as lists of byte values. -/
abbrev Bytes := List Nat

/-- Function `readBytes c off n` : the `n` bytes of `c` starting at offset `off`
(fewer if `c` ends first); the bytes `copy(p, c[off:])` would copy with
`n = len(p)`. -/
def readBytes (c : Bytes) (off n : Nat) : Bytes :=
  (c.drop off).take n

/-- Function `writeBytes c off p` : `c` with the bytes of `p` copied in starting at
offset `off`, truncated at the end of `c` — the effect of
`copy(c[off:], p)` in Go. -/
def writeBytes (c : Bytes) (off : Nat) (p : Bytes) : Bytes :=
  let k := min p.length (c.length - off)
  c.take off ++ p.take k ++ c.drop (off + k)

theorem writeBytes_length (c : Bytes) (off : Nat) (p : Bytes)
    (h : off + p.length ≤ c.length) :
    (writeBytes c off p).length = c.length := by
  have hk : min p.length (c.length - off) = p.length := by omega
  simp [writeBytes, hk, List.length_take, List.length_drop]
  omega

theorem readBytes_writeBytes (c : Bytes) (off : Nat) (p : Bytes)
    (h : off + p.length ≤ c.length) :
    readBytes (writeBytes c off p) off p.length = p := by
  have hk : min p.length (c.length - off) = p.length := by omega
  have htk : p.take p.length = p := List.take_length ..
  have hlen : (c.take off).length = off := by
    simp [List.length_take]; omega
  have hdrop : (c.take off ++ (p ++ c.drop (off + p.length))).drop off
      = p ++ c.drop (off + p.length) := List.drop_left' hlen
  simp only [writeBytes, hk, htk, readBytes, List.append_assoc, hdrop]
  exact List.take_left' rfl

/-- Type `MappingMode` from memmapfs.go. -/
inductive MappingMode
  | modeReadOnly
  | modeReadWrite
  | modeCopyOnWrite
deriving DecidableEq, Repr

/-- Type `SyncMode` from memmapfs.go. -/
inductive SyncMode
  | syncImmediate
  | syncPeriodic
  | syncLazy
  | syncNever
deriving DecidableEq, Repr

/-- The fields of `Config` (memmapfs.go) that the mapping engine reads. -/
structure Config where
  mode : MappingMode
  syncMode : SyncMode
  mapFullFile : Bool
  windowSize : Int
deriving DecidableEq, Repr

/-- The error values the I/O surface can return (memmapfs.go `Err…`,
`io.EOF`, `io.ErrShortWrite`), plus:
`remapFailed` for the wrapped "failed to remap window" error of
`slideWindow`; `fileAlreadyClosed` for the underlying handle's error on a
second `Close` (the `os.File` double-close error); `delegated` marking the
paths that forward to the underlying unmapped file. -/
inductive IOError
  | eof
  | invalidOffset
  | invalidWhence
  | shortWrite
  | writeToReadOnlyMap
  | notMapped
  | remapFailed
  | fileAlreadyClosed
  | delegated
deriving DecidableEq, Repr

/-- Whether a flush syscall awaits write-back (`MS_SYNC`) or only queues
it (`MS_ASYNC`). -/
inductive FlushKind
  | sync
  | async
deriving DecidableEq, Repr

/-- Observable syscalls issued by the mapping primitive and the handle. -/
inductive Event
  | flush (k : FlushKind)
  | munmapCall
  | mmapCall
  | fileSyncCall
  | fileCloseCall
deriving DecidableEq, Repr

/-- The `MappedFile` state (file.go) together with the page-cache bytes of
the backing file (`contents`, aliased by the MAP_SHARED view) and the
observable state of the underlying handle and scheduler registration. -/
structure MappedFile where
  /-- Bytes of the backing file as seen through the page cache; the
  MAP_SHARED view at `[windowOffset, windowOffset + dataLen)` aliases it. -/
  contents : Bytes
  /-- `mf.size` : total file size. -/
  size : Int
  /-- `mf.position` : current read/write cursor. -/
  position : Int
  /-- `mf.windowSize` : 0 = full-file mapping. -/
  windowSize : Int
  /-- `mf.windowOffset` : file offset where the current window starts. -/
  windowOffset : Int
  /-- `some l` iff `mf.data != nil`, with `l = len(mf.data)`. -/
  dataLen : Option Int
  /-- `true` iff `mf.mmapData != nil` (the raw mapping is live). -/
  mmapData : Bool
  /-- Configuration. -/
  config : Config
  /-- `mf.modified` : dirty flag. -/
  modified : Bool
  /-- `true` iff `mf.syncManager != nil`. -/
  hasSyncManager : Bool
  /-- Whether this file is currently in the sync manager's set. -/
  registered : Bool
  /-- Whether the underlying handle has been closed. -/
  fileClosed : Bool
deriving DecidableEq, Repr

/-- The value `len(mf.data)` as the Go code reads it: 0 for a nil slice. -/
def dataLenInt (mf : MappedFile) : Int :=
  match mf.dataLen with
  | none => 0
  | some l => l

/-- Result of one I/O-surface call: the value returned (bytes copied out
for reads, byte count for writes, new position for seeks), the error
slot, the state after the call, and the syscalls issued. -/
structure Outcome (α : Type) where
  val : α
  error : Option IOError
  file : MappedFile
  events : List Event
deriving Repr

/-- Method `MappedFile.msync` (mmap_linux.go): elides the syscall when the raw
mapping is gone; otherwise `MS_SYNC` under Immediate, `MS_ASYNC` under
Periodic and Lazy, and no syscall at all under Never. -/
def msyncEvents (mf : MappedFile) : List Event :=
  if mf.mmapData = false then []
  else
    match mf.config.syncMode with
    | .syncImmediate => [.flush .sync]
    | .syncPeriodic => [.flush .async]
    | .syncLazy => [.flush .async]
    | .syncNever => []

/-- Method `MappedFile.syncLocked` (file.go): delegate to `file.Sync()` when not
mapped; no-op for read-only mappings and when not dirty; otherwise
`msync`.  Note the code never clears `mf.modified` here. -/
def syncLockedEvents (mf : MappedFile) : List Event :=
  if mf.dataLen = none then [.fileSyncCall]
  else if mf.config.mode = .modeReadOnly then []
  else if mf.modified = false then []
  else msyncEvents mf

/-- Method `MappedFile.fileOffsetToWindowOffset` (file.go). -/
def fileOffsetToWindowOffset (mf : MappedFile) (fileOffset : Int) : Int :=
  if mf.windowSize = 0 then fileOffset
  else fileOffset - mf.windowOffset

/-- The new window offset computed by `slideWindow` (file.go): align the
target down to a `windowSize` boundary, then clamp so the window does not
start at or past the end of the file.  Division on nonnegative operands
agrees between Go's truncated and Lean's Euclidean `/`. -/
def slideNewOffset (mf : MappedFile) (targetOffset : Int) : Int :=
  let newOffset0 : Int := targetOffset / mf.windowSize * mf.windowSize
  if newOffset0 ≥ mf.size then
    (if mf.size - mf.windowSize < 0 then 0 else mf.size - mf.windowSize)
  else newOffset0

/-- The length of the view established by `mmap` (mmap_linux.go) for a
windowed mapping at `slideNewOffset`: the window size, clamped so the
mapping does not extend past the end of the file. -/
def slideMapSize (mf : MappedFile) (targetOffset : Int) : Int :=
  if slideNewOffset mf targetOffset + mf.windowSize > mf.size then
    mf.size - slideNewOffset mf targetOffset
  else mf.windowSize

/-- Method `MappedFile.slideWindow` (file.go) combined with the observable effect
of `munmap` and `mmap` (mmap_linux.go).  `est` is the oracle for the
re-establishing `mmap` call: on `est = false` the code returns the
wrapped "failed to remap window" error, leaving `mf.data` at its stale
value (only `mmapData` was cleared by `munmap`) and `windowOffset`
already moved.  The code clears `modified` only inside `if mf.modified`;
writing `modified := false` unconditionally is the same assignment.
`msync` and `munmap` themselves are assumed to succeed (no claim
exercises their failure). -/
def slideWindow (mf : MappedFile) (est : Bool) (targetOffset : Int) :
    Option IOError × MappedFile × List Event :=
  if mf.windowSize = 0 then (none, mf, [])
  else if mf.windowOffset ≤ targetOffset ∧
      targetOffset < mf.windowOffset + dataLenInt mf then (none, mf, [])
  else
    -- sync current window if modified, then clear the dirty flag
    let syncEvs : List Event := if mf.modified then msyncEvents mf else []
    -- munmap the current window; it clears only the raw `mmapData` slice
    let unmapEvs : List Event :=
      if mf.mmapData then [Event.munmapCall] else []
    if est then
      (none,
        { mf with
            modified := false,
            windowOffset := slideNewOffset mf targetOffset,
            dataLen := some (slideMapSize mf targetOffset),
            mmapData := true },
        syncEvs ++ unmapEvs ++ [Event.mmapCall])
    else
      (some .remapFailed,
        { mf with
            modified := false,
            windowOffset := slideNewOffset mf targetOffset,
            mmapData := false },
        syncEvs ++ unmapEvs)

/-- Method `MappedFile.ensureInWindow` (file.go). -/
def ensureInWindow (mf : MappedFile) (est : Bool) (fileOffset : Int) :
    Option IOError × MappedFile × List Event :=
  if mf.windowSize = 0 then (none, mf, [])
  else if mf.windowOffset ≤ fileOffset ∧
      fileOffset < mf.windowOffset + dataLenInt mf then (none, mf, [])
  else slideWindow mf est fileOffset

/-- Method `MappedFile.Read` (file.go).  `pLen` is `len(p)`; the value returned
is the bytes copied into `p` (so `n` is its length).  The code guards the
`ensureInWindow` call with `windowSize > 0`; since `ensureInWindow` is a
no-op when `windowSize = 0`, the unconditional call is the same. -/
def read (mf : MappedFile) (est : Bool) (pLen : Nat) : Outcome Bytes :=
  if mf.dataLen = none then ⟨[], some .delegated, mf, []⟩
  else if mf.position ≥ mf.size then ⟨[], some .eof, mf, []⟩
  else
    match ensureInWindow mf est mf.position with
    | (some e, mf', evs) => ⟨[], some e, mf', evs⟩
    | (none, mf', evs) =>
      let windowPos := fileOffsetToWindowOffset mf' mf'.position
      -- n := copy(p, mf.data[windowPos:])
      let n : Nat := min pLen (dataLenInt mf' - windowPos).toNat
      let bytes := readBytes mf'.contents mf'.position.toNat n
      ⟨bytes, none, { mf' with position := mf'.position + n }, evs⟩

/-- Method `MappedFile.ReadAt` (file.go).  Returns `io.EOF` whenever fewer than
`len(p)` bytes were copied from the current window. -/
def readAt (mf : MappedFile) (est : Bool) (pLen : Nat) (off : Int) :
    Outcome Bytes :=
  if mf.dataLen = none then ⟨[], some .delegated, mf, []⟩
  else if off < 0 ∨ off ≥ mf.size then ⟨[], some .invalidOffset, mf, []⟩
  else
    match ensureInWindow mf est off with
    | (some e, mf', evs) => ⟨[], some e, mf', evs⟩
    | (none, mf', evs) =>
      let windowOff := fileOffsetToWindowOffset mf' off
      -- n := copy(p, mf.data[windowOff:])
      let n : Nat := min pLen (dataLenInt mf' - windowOff).toNat
      let bytes := readBytes mf'.contents off.toNat n
      if n < pLen then ⟨bytes, some .eof, mf', evs⟩
      else ⟨bytes, none, mf', evs⟩

/-- Method `MappedFile.Write` (file.go).  Writing through the MAP_SHARED view at
window-relative `windowPos` updates the page cache at absolute offset
`position`, hence `writeBytes` on `contents` at the absolute offset. -/
def write (mf : MappedFile) (est : Bool) (p : Bytes) : Outcome Int :=
  if mf.dataLen = none then ⟨0, some .delegated, mf, []⟩
  else if mf.config.mode = .modeReadOnly then
    ⟨0, some .writeToReadOnlyMap, mf, []⟩
  else if mf.position + p.length > mf.size then ⟨0, some .shortWrite, mf, []⟩
  else
    match ensureInWindow mf est mf.position with
    | (some e, mf', evs) => ⟨0, some e, mf', evs⟩
    | (none, mf', evs) =>
      let windowPos := fileOffsetToWindowOffset mf' mf'.position
      if windowPos + p.length > dataLenInt mf' then
        ⟨0, some .shortWrite, mf', evs⟩
      else
        -- n := copy(mf.data[windowPos:], p); here n = len(p) because the
        -- window-bound check above guarantees p fits in the view
        let mf2 : MappedFile :=
          { mf' with
            contents := writeBytes mf'.contents mf'.position.toNat p,
            position := mf'.position + p.length,
            modified := true }
        let flushEvs :=
          if mf2.config.syncMode = .syncImmediate then syncLockedEvents mf2
          else []
        ⟨p.length, none, mf2, evs ++ flushEvs⟩

/-- Method `MappedFile.WriteAt` (file.go). -/
def writeAt (mf : MappedFile) (est : Bool) (p : Bytes) (off : Int) :
    Outcome Int :=
  if mf.dataLen = none then ⟨0, some .delegated, mf, []⟩
  else if mf.config.mode = .modeReadOnly then
    ⟨0, some .writeToReadOnlyMap, mf, []⟩
  else if off < 0 ∨ off ≥ mf.size then ⟨0, some .invalidOffset, mf, []⟩
  else if off + p.length > mf.size then ⟨0, some .shortWrite, mf, []⟩
  else
    match ensureInWindow mf est off with
    | (some e, mf', evs) => ⟨0, some e, mf', evs⟩
    | (none, mf', evs) =>
      let windowOff := fileOffsetToWindowOffset mf' off
      if windowOff + p.length > dataLenInt mf' then
        ⟨0, some .shortWrite, mf', evs⟩
      else
        let mf2 : MappedFile :=
          { mf' with
            contents := writeBytes mf'.contents off.toNat p,
            modified := true }
        let flushEvs :=
          if mf2.config.syncMode = .syncImmediate then syncLockedEvents mf2
          else []
        ⟨p.length, none, mf2, evs ++ flushEvs⟩

/-- Go `io` whence values. -/
def seekStart : Nat := 0

/-- Go `io.SeekCurrent`. -/
def seekCurrent : Nat := 1

/-- Go `io.SeekEnd`. -/
def seekEnd : Nat := 2

/-- Method `MappedFile.Seek` (file.go): only a negative result is rejected; the
new position is NOT clamped to `size`. -/
def seek (mf : MappedFile) (offset : Int) (whence : Nat) : Outcome Int :=
  if mf.dataLen = none then ⟨0, some .delegated, mf, []⟩
  else
    let newPos? : Option Int :=
      if whence = seekStart then some offset
      else if whence = seekCurrent then some (mf.position + offset)
      else if whence = seekEnd then some (mf.size + offset)
      else none
    match newPos? with
    | none => ⟨0, some .invalidWhence, mf, []⟩
    | some newPos =>
      if newPos < 0 then ⟨0, some .invalidOffset, mf, []⟩
      else ⟨newPos, none, { mf with position := newPos }, []⟩

/-- Method `MappedFile.Sync` (file.go): just `syncLocked` under the lock.  The
state is returned unchanged — in particular `modified` is NOT cleared. -/
def syncOp (mf : MappedFile) : Outcome Unit :=
  ⟨(), none, mf, syncLockedEvents mf⟩

/-- Method `MappedFile.Close` (file.go): unregister from the sync manager, sync
if modified, unmap, and close the underlying handle — unconditionally, so
a second `Close` calls the handle's `Close` again, which rejects a
double close (`os.File` contract; the handle itself lives outside this
repository). -/
def close (mf : MappedFile) : Outcome Unit :=
  let mfA : MappedFile :=
    if mf.hasSyncManager then { mf with registered := false } else mf
  let syncEvs : List Event :=
    if mfA.modified = true ∧ mfA.dataLen ≠ none then syncLockedEvents mfA
    else []
  let unmapEvs : List Event :=
    if mfA.dataLen ≠ none then
      (if mfA.mmapData then [Event.munmapCall] else [])
    else []
  let mfB : MappedFile :=
    if mfA.dataLen ≠ none then { mfA with mmapData := false, dataLen := none }
    else mfA
  let closeErr : Option IOError :=
    if mfB.fileClosed then some .fileAlreadyClosed else none
  let mfC : MappedFile := { mfB with fileClosed := true }
  ⟨(), closeErr, mfC, syncEvs ++ unmapEvs ++ [Event.fileCloseCall]⟩

/-- The `syncManager` state (sync.go); files are identified by a token. -/
structure SyncManager where
  files : List Nat
  stopped : Bool
deriving DecidableEq, Repr

/-- Method `syncManager.register` (sync.go): no-op once stopped; map insertion
is idempotent. -/
def smRegister (sm : SyncManager) (id : Nat) : SyncManager :=
  if sm.stopped then sm
  else if id ∈ sm.files then sm
  else { sm with files := id :: sm.files }

/-- Method `syncManager.unregister` (sync.go): unconditional map delete. -/
def smUnregister (sm : SyncManager) (id : Nat) : SyncManager :=
  { sm with files := sm.files.erase id }

/-- Method `syncManager.stop` (sync.go): idempotent; clears the file set. -/
def smStop (sm : SyncManager) : SyncManager :=
  if sm.stopped then sm
  else { files := [], stopped := true }

/-- The calls a client can make on a `syncManager` after construction. -/
inductive SMOp
  | register (id : Nat)
  | unregister (id : Nat)
  | stop
deriving DecidableEq, Repr

/-- Apply one `syncManager` call. -/
def smApply (sm : SyncManager) : SMOp → SyncManager
  | .register id => smRegister sm id
  | .unregister id => smUnregister sm id
  | .stop => smStop sm

/-- Apply a sequence of `syncManager` calls. -/
def smRun (sm : SyncManager) : List SMOp → SyncManager
  | [] => sm
  | op :: ops => smRun (smApply sm op) ops

/-- Method `syncManager.syncAll` (sync.go) snapshots the registration set and
calls `Sync` on each member; the files it would sync are exactly the
snapshot. -/
def syncAllTargets (sm : SyncManager) : List Nat :=
  sm.files

/-- The view length `newMappedFile`/`mmap` establish and `slideWindow`
re-establishes: the whole file for a full-file mapping, otherwise the
window size clamped to the end of the file. -/
def expectedDataLen (mf : MappedFile) : Int :=
  if mf.windowSize = 0 then mf.size
  else min mf.windowSize (mf.size - mf.windowOffset)

/-- Well-formedness of a live mapped file, as established by
`newMappedFile` + `mmap` and preserved by the I/O surface: sizes and
offsets are in range, the view length matches the mapping just
established, the raw mapping is live, and the mapping is MAP_SHARED
(read-only or read-write; copy-on-write views are private copies, which
this page-cache model does not cover). -/
def WF (mf : MappedFile) : Prop :=
  (mf.contents.length : Int) = mf.size ∧
  0 ≤ mf.position ∧
  0 ≤ mf.windowSize ∧
  0 ≤ mf.windowOffset ∧
  mf.windowOffset ≤ mf.size ∧
  (mf.windowSize = 0 → mf.windowOffset = 0) ∧
  mf.config.mode ≠ .modeCopyOnWrite ∧
  mf.dataLen = some (expectedDataLen mf) ∧
  mf.mmapData = true ∧
  (mf.registered = true → mf.hasSyncManager = true)

instance (mf : MappedFile) : Decidable (WF mf) := by
  unfold WF; infer_instance

theorem slideNewOffset_spec (mf : MappedFile) (t : Int)
    (hW : 0 < mf.windowSize) (ht0 : 0 ≤ t) (hts : t < mf.size) :
    0 ≤ slideNewOffset mf t ∧ slideNewOffset mf t ≤ t ∧
    t - slideNewOffset mf t < mf.windowSize := by
  have h1 : t / mf.windowSize * mf.windowSize ≤ t :=
    Int.ediv_mul_le t (by omega)
  have h2 : 0 ≤ t / mf.windowSize * mf.windowSize := by
    have := Int.ediv_nonneg ht0 (le_of_lt hW)
    positivity
  have h3 : t - t / mf.windowSize * mf.windowSize < mf.windowSize := by
    have ha := Int.emod_lt_of_pos t hW
    have hb := Int.ediv_add_emod t mf.windowSize
    have hc : mf.windowSize * (t / mf.windowSize)
        = t / mf.windowSize * mf.windowSize := by ring
    omega
  have hmain : slideNewOffset mf t = t / mf.windowSize * mf.windowSize := by
    unfold slideNewOffset
    rw [if_neg (by omega)]
  omega

/-- What a successful `ensureInWindow` guarantees: the state is unchanged
except possibly for a slide (window relocation, dirty flag cleared), it
stays well-formed, and — in a windowed configuration — the requested
offset now lies inside the view. -/
theorem ensureInWindow_ok_spec (mf : MappedFile) (est : Bool) (t : Int)
    (mf' : MappedFile) (evs : List Event)
    (hwf : WF mf) (ht0 : 0 ≤ t) (hts : t < mf.size)
    (h : ensureInWindow mf est t = (none, mf', evs)) :
    WF mf' ∧ mf'.contents = mf.contents ∧ mf'.size = mf.size ∧
    mf'.position = mf.position ∧ mf'.config = mf.config ∧
    mf'.windowSize = mf.windowSize ∧
    mf'.fileClosed = mf.fileClosed ∧
    mf'.hasSyncManager = mf.hasSyncManager ∧
    mf'.registered = mf.registered ∧
    (0 < mf.windowSize →
      mf'.windowOffset ≤ t ∧ t < mf'.windowOffset + dataLenInt mf') ∧
    (mf.windowSize = 0 → mf' = mf) := by
  obtain ⟨hlen, hpos, hW0, hwo0, hwos, hw0z, hmode, hdl, hmm, hreg⟩ := hwf
  by_cases hW : mf.windowSize = 0
  · unfold ensureInWindow at h
    rw [if_pos hW] at h
    obtain ⟨rfl, -⟩ : mf' = mf ∧ evs = [] := by
      exact ⟨congrArg (fun x => x.2.1) h.symm, congrArg (fun x => x.2.2) h.symm⟩
    refine ⟨⟨hlen, hpos, hW0, hwo0, hwos, hw0z, hmode, hdl, hmm, hreg⟩,
      rfl, rfl, rfl, rfl, rfl, rfl, rfl, rfl, ?_, fun _ => rfl⟩
    intro hc; omega
  · unfold ensureInWindow at h
    rw [if_neg hW] at h
    by_cases hin : mf.windowOffset ≤ t ∧ t < mf.windowOffset + dataLenInt mf
    · rw [if_pos hin] at h
      obtain ⟨rfl, -⟩ : mf' = mf ∧ evs = [] := by
        exact ⟨congrArg (fun x => x.2.1) h.symm, congrArg (fun x => x.2.2) h.symm⟩
      exact ⟨⟨hlen, hpos, hW0, hwo0, hwos, hw0z, hmode, hdl, hmm, hreg⟩,
        rfl, rfl, rfl, rfl, rfl, rfl, rfl, rfl, fun _ => hin, fun hz => absurd hz hW⟩
    · rw [if_neg hin] at h
      unfold slideWindow at h
      rw [if_neg hW, if_neg hin] at h
      by_cases hest : est = true
      · subst hest
        rw [if_pos rfl] at h
        have hmf' : mf' =
            { mf with
                modified := false,
                windowOffset := slideNewOffset mf t,
                dataLen := some (slideMapSize mf t),
                mmapData := true } :=
          (congrArg (fun x => x.2.1) h).symm
        have hWpos : 0 < mf.windowSize := by omega
        obtain ⟨hn0, hnt, hnw⟩ := slideNewOffset_spec mf t hWpos ht0 hts
        have hms : slideMapSize mf t
            = min mf.windowSize (mf.size - slideNewOffset mf t) := by
          unfold slideMapSize
          by_cases hcl : slideNewOffset mf t + mf.windowSize > mf.size
          · rw [if_pos hcl]; omega
          · rw [if_neg hcl]; omega
        subst hmf'
        refine ⟨⟨hlen, hpos, hW0, hn0, by simp; omega, by simp; omega,
          hmode, ?_, rfl, hreg⟩,
          rfl, rfl, rfl, rfl, rfl, rfl, rfl, rfl, ?_, ?_⟩
        · simp only [expectedDataLen]
          rw [if_neg hW]
          simp [hms]
        · intro _
          simp only [dataLenInt]
          simp [hms]; omega
        · intro hz; exact absurd hz hW
      · have hest' : est = false := by
          cases est
          · rfl
          · exact absurd rfl hest
        subst hest'
        rw [if_neg (by simp)] at h
        exact absurd (congrArg (fun x => x.1) h) (by simp)

/-- On a well-formed state whose window (if any) already contains the
whole range `[off, off + |p|)`, and whose contents carry `p` at `off`,
`ReadAt` succeeds and returns exactly `p`. -/
theorem readAt_exact (mfR : MappedFile) (est2 : Bool) (p : Bytes) (off : Int)
    (hwf : WF mfR) (h0 : 0 ≤ off) (hplen : 0 < p.length)
    (hfit : off + p.length ≤ mfR.size)
    (hbytes : readBytes mfR.contents off.toNat p.length = p)
    (hwin : 0 < mfR.windowSize →
      mfR.windowOffset ≤ off ∧
      off + p.length ≤ mfR.windowOffset + dataLenInt mfR) :
    (readAt mfR est2 p.length off).error = none ∧
    (readAt mfR est2 p.length off).val = p := by
  obtain ⟨hl, hpos, hW0, hwo0, hwos, hw0z, hmode, hdl, hmm, hreg⟩ := hwf
  have hdne : ¬ mfR.dataLen = none := by rw [hdl]; simp
  have hne : ¬ (off < 0 ∨ off ≥ mfR.size) := by omega
  have hdli : dataLenInt mfR = expectedDataLen mfR := by
    simp [dataLenInt, hdl]
  have hE : ensureInWindow mfR est2 off = (none, mfR, []) := by
    unfold ensureInWindow
    by_cases hW : mfR.windowSize = 0
    · rw [if_pos hW]
    · rw [if_neg hW, if_pos ?_]
      have hw := hwin (by omega)
      exact ⟨hw.1, by omega⟩
  have hbound : (p.length : Int)
      ≤ dataLenInt mfR - fileOffsetToWindowOffset mfR off := by
    unfold fileOffsetToWindowOffset
    by_cases hW : mfR.windowSize = 0
    · rw [if_pos hW]
      rw [hdli]
      unfold expectedDataLen
      rw [if_pos hW]
      omega
    · rw [if_neg hW]
      have hw := hwin (by omega)
      omega
  have hn : min p.length (dataLenInt mfR - fileOffsetToWindowOffset mfR off).toNat
      = p.length := by omega
  simp only [readAt, hE, if_neg hdne, if_neg hne, hn]
  rw [if_neg (by omega)]
  exact ⟨rfl, hbytes⟩

/-- Like `readAt_exact` for the sequential `Read` with the cursor at
`off`. -/
theorem read_exact (mfR : MappedFile) (est2 : Bool) (p : Bytes) (off : Int)
    (hwf : WF mfR) (hplen : 0 < p.length)
    (hcur : mfR.position = off)
    (hfit : off + p.length ≤ mfR.size)
    (hbytes : readBytes mfR.contents off.toNat p.length = p)
    (hwin : 0 < mfR.windowSize →
      mfR.windowOffset ≤ off ∧
      off + p.length ≤ mfR.windowOffset + dataLenInt mfR) :
    (read mfR est2 p.length).error = none ∧
    (read mfR est2 p.length).val = p := by
  obtain ⟨hl, hpos, hW0, hwo0, hwos, hw0z, hmode, hdl, hmm, hreg⟩ := hwf
  have hdne : ¬ mfR.dataLen = none := by rw [hdl]; simp
  have hne : ¬ (mfR.position ≥ mfR.size) := by omega
  have hdli : dataLenInt mfR = expectedDataLen mfR := by
    simp [dataLenInt, hdl]
  have hE : ensureInWindow mfR est2 mfR.position = (none, mfR, []) := by
    unfold ensureInWindow
    by_cases hW : mfR.windowSize = 0
    · rw [if_pos hW]
    · rw [if_neg hW, if_pos ?_]
      have hw := hwin (by omega)
      constructor <;> omega
  have hbound : (p.length : Int)
      ≤ dataLenInt mfR - fileOffsetToWindowOffset mfR mfR.position := by
    unfold fileOffsetToWindowOffset
    by_cases hW : mfR.windowSize = 0
    · rw [if_pos hW]
      rw [hdli]
      unfold expectedDataLen
      rw [if_pos hW]
      omega
    · rw [if_neg hW]
      have hw := hwin (by omega)
      omega
  have hn : min p.length
      (dataLenInt mfR - fileOffsetToWindowOffset mfR mfR.position).toNat
      = p.length := by omega
  have hbytes' : readBytes mfR.contents mfR.position.toNat p.length = p := by
    rw [hcur]; exact hbytes
  simp only [read, hE, if_neg hdne, if_neg hne, hn]
  exact ⟨trivial, hbytes'⟩

/-- The state a successful positional write leaves behind: the post-slide
state with `p` copied into the page cache at `off` and the dirty flag
set. -/
def writtenAt (mf' : MappedFile) (off : Int) (p : Bytes) : MappedFile :=
  { mf' with contents := writeBytes mf'.contents off.toNat p, modified := true }

/-- The state a successful cursor write leaves behind: additionally the
cursor has advanced past the written bytes. -/
def writtenSeq (mf' : MappedFile) (p : Bytes) : MappedFile :=
  { mf' with contents := writeBytes mf'.contents mf'.position.toNat p,
             position := mf'.position + p.length, modified := true }

/-- A state with the cursor moved, as a successful `Seek` leaves it. -/
def atPos (mf : MappedFile) (off : Int) : MappedFile :=
  { mf with position := off }

/-- What a `WriteAt` that returned no error did: every validation passed,
the window (after an eventual slide captured by `ensureInWindow`) holds
the whole range, and the state is the post-slide state with `p` copied
into the page cache at `off` and the dirty flag set. -/
theorem writeAt_ok_decomp (mf : MappedFile) (est : Bool) (p : Bytes)
    (off : Int) (hdne : mf.dataLen ≠ none)
    (herr : (writeAt mf est p off).error = none) :
    ∃ mf' evs, ensureInWindow mf est off = (none, mf', evs) ∧
      mf.config.mode ≠ .modeReadOnly ∧
      0 ≤ off ∧ off < mf.size ∧
      off + p.length ≤ mf.size ∧
      fileOffsetToWindowOffset mf' off + p.length ≤ dataLenInt mf' ∧
      (writeAt mf est p off).file = writtenAt mf' off p := by
  unfold writeAt at herr ⊢
  rw [if_neg hdne] at herr ⊢
  by_cases hro : mf.config.mode = .modeReadOnly
  · rw [if_pos hro] at herr; simp at herr
  rw [if_neg hro] at herr ⊢
  by_cases hval : off < 0 ∨ off ≥ mf.size
  · rw [if_pos hval] at herr; simp at herr
  rw [if_neg hval] at herr ⊢
  by_cases hfit : off + (p.length : Int) > mf.size
  · rw [if_pos hfit] at herr; simp at herr
  rw [if_neg hfit] at herr ⊢
  rcases hE : ensureInWindow mf est off with ⟨e, mf', evs⟩
  cases e with
  | some e' => rw [hE] at herr; simp at herr
  | none =>
    rw [hE] at herr
    simp only [] at herr ⊢
    by_cases hwinc : dataLenInt mf'
        < fileOffsetToWindowOffset mf' off + (p.length : Int)
    · rw [if_pos hwinc] at herr; simp at herr
    rw [if_neg hwinc] at herr ⊢
    exact ⟨mf', evs, rfl, hro, by omega, by omega, by omega, by omega, rfl⟩

/-- What a `Write` (cursor write) that returned no error did. -/
theorem write_ok_decomp (mf : MappedFile) (est : Bool) (p : Bytes)
    (hdne : mf.dataLen ≠ none)
    (herr : (write mf est p).error = none) :
    ∃ mf' evs, ensureInWindow mf est mf.position = (none, mf', evs) ∧
      mf.config.mode ≠ .modeReadOnly ∧
      mf.position + p.length ≤ mf.size ∧
      fileOffsetToWindowOffset mf' mf'.position + p.length ≤ dataLenInt mf' ∧
      (write mf est p).file = writtenSeq mf' p := by
  unfold write at herr ⊢
  rw [if_neg hdne] at herr ⊢
  by_cases hro : mf.config.mode = .modeReadOnly
  · rw [if_pos hro] at herr; simp at herr
  rw [if_neg hro] at herr ⊢
  by_cases hfit : mf.position + (p.length : Int) > mf.size
  · rw [if_pos hfit] at herr; simp at herr
  rw [if_neg hfit] at herr ⊢
  rcases hE : ensureInWindow mf est mf.position with ⟨e, mf', evs⟩
  cases e with
  | some e' => rw [hE] at herr; simp at herr
  | none =>
    rw [hE] at herr
    simp only [] at herr ⊢
    by_cases hwinc : dataLenInt mf'
        < fileOffsetToWindowOffset mf' mf'.position + (p.length : Int)
    · rw [if_pos hwinc] at herr; simp at herr
    rw [if_neg hwinc] at herr ⊢
    exact ⟨mf', evs, rfl, hro, by omega, by omega, rfl⟩

/-- A concrete windowed read-write file used to instantiate the
round-trip theorem: 8 bytes, 4-byte window currently at offset 0. -/
def exampleRW : MappedFile :=
  { contents := [10, 11, 12, 13, 14, 15, 16, 17]
    size := 8
    position := 0
    windowSize := 4
    windowOffset := 0
    dataLen := some 4
    mmapData := true
    config :=
      { mode := .modeReadWrite
        syncMode := .syncNever
        mapFullFile := false
        windowSize := 4 }
    modified := false
    hasSyncManager := false
    registered := false
    fileClosed := false }

/-- C1: on a read-write mapped file, a successful write of `p` at offset
`off` — by `WriteAt`, or by `Write` at cursor `off` — followed by a
`ReadAt` over `[off, off + |p|)`, or by a `Seek` to `off` and a `Read` of
`|p|` bytes, returns exactly `p`; for every sync policy and for
whole-file as well as windowed mappings (`est` covers the slide oracle of
the write; `est2` that of the read-back, whose slide is a no-op). -/
theorem write_readAt_roundtrip (mf : MappedFile) (est est2 : Bool)
    (p : Bytes) (off : Int)
    (hwf : WF mf) (hmode : mf.config.mode = .modeReadWrite) (hp : p ≠ []) :
    ((writeAt mf est p off).error = none →
      (readAt (writeAt mf est p off).file est2 p.length off).error = none ∧
      (readAt (writeAt mf est p off).file est2 p.length off).val = p ∧
      (read (seek (writeAt mf est p off).file off seekStart).file
          est2 p.length).error = none ∧
      (read (seek (writeAt mf est p off).file off seekStart).file
          est2 p.length).val = p)
    ∧ ((write mf est p).error = none →
      (readAt (write mf est p).file est2 p.length mf.position).error = none ∧
      (readAt (write mf est p).file est2 p.length mf.position).val = p) := by
  have hplen : 0 < p.length := List.length_pos.mpr hp
  have hwfK := hwf
  obtain ⟨hl, hpos, hW0, hwo0, hwos, hw0z, hmodeCW, hdl, hmm, hreg⟩ := hwfK
  have hdne : mf.dataLen ≠ none := by rw [hdl]; simp
  constructor
  · intro herr
    obtain ⟨mf', evs, hE, hro, hoff0, hoffs, hfit, hwinb, hfile⟩ :=
      writeAt_ok_decomp mf est p off hdne herr
    obtain ⟨hwfE, hc, hs, hP, hcfg, hWs, hFC, hSM, hR, hwinE, hz⟩ :=
      ensureInWindow_ok_spec mf est off mf' evs hwf hoff0 hoffs hE
    have hwfE' := hwfE
    obtain ⟨hl', hpos', hW0', hwo0', hwos', hw0z', hmodeCW', hdl', hmm', hreg'⟩ :=
      hwfE'
    have hlenfit : off.toNat + p.length ≤ mf'.contents.length := by omega
    have hwf2 : WF (writtenAt mf' off p) := by
      unfold writtenAt
      refine ⟨?_, hpos', hW0', hwo0', hwos', hw0z', hmodeCW', hdl', hmm', hreg'⟩
      show ((writeBytes mf'.contents off.toNat p).length : Int) = mf'.size
      rw [writeBytes_length _ _ _ hlenfit]
      exact hl'
    have hbytes : readBytes (writtenAt mf' off p).contents
        off.toNat p.length = p := readBytes_writeBytes _ _ _ hlenfit
    have hfit2 : off + (p.length : Int) ≤ (writtenAt mf' off p).size := by
      show off + (p.length : Int) ≤ mf'.size
      omega
    have hwin2 : 0 < mf'.windowSize →
        mf'.windowOffset ≤ off ∧
        off + (p.length : Int) ≤ mf'.windowOffset + dataLenInt mf' := by
      intro hWpos
      have hWb := hwinE (by omega)
      have hfW : fileOffsetToWindowOffset mf' off = off - mf'.windowOffset := by
        unfold fileOffsetToWindowOffset
        rw [if_neg (by omega)]
      rw [hfW] at hwinb
      exact ⟨by omega, by omega⟩
    have hra := readAt_exact (writtenAt mf' off p)
      est2 p off hwf2 hoff0 hplen hfit2 hbytes hwin2
    have hdne2 : ¬ (writtenAt mf' off p).dataLen = none := by
      show ¬ mf'.dataLen = none
      rw [hdl']; simp
    have hseek : seek (writtenAt mf' off p) off seekStart
        = ⟨off, none, atPos (writtenAt mf' off p) off, []⟩ := by
      unfold seek
      rw [if_neg hdne2]
      simp only [seekStart, reduceIte]
      rw [if_neg (by omega : ¬ off < 0)]
      rfl
    have hwf3 : WF (atPos (writtenAt mf' off p) off) := by
      unfold atPos writtenAt
      refine ⟨?_, hoff0, hW0', hwo0', hwos', hw0z', hmodeCW', hdl', hmm', hreg'⟩
      show ((writeBytes mf'.contents off.toNat p).length : Int) = mf'.size
      rw [writeBytes_length _ _ _ hlenfit]
      exact hl'
    have hrd := read_exact (atPos (writtenAt mf' off p) off)
      est2 p off hwf3 hplen rfl hfit2 hbytes hwin2
    rw [hfile, hseek]
    exact ⟨hra.1, hra.2, hrd.1, hrd.2⟩
  · intro herr
    obtain ⟨mf', evs, hE, hro, hfit, hwinb, hfile⟩ :=
      write_ok_decomp mf est p hdne herr
    have hposs : mf.position < mf.size := by omega
    obtain ⟨hwfE, hc, hs, hP, hcfg, hWs, hFC, hSM, hR, hwinE, hz⟩ :=
      ensureInWindow_ok_spec mf est mf.position mf' evs hwf hpos hposs hE
    have hwfE' := hwfE
    obtain ⟨hl', hpos', hW0', hwo0', hwos', hw0z', hmodeCW', hdl', hmm', hreg'⟩ :=
      hwfE'
    have hPt : mf'.position.toNat = mf.position.toNat := by rw [hP]
    have hlenfit : mf'.position.toNat + p.length ≤ mf'.contents.length := by
      omega
    have hwf2 : WF (writtenSeq mf' p) := by
      unfold writtenSeq
      refine ⟨?_, by show 0 ≤ mf'.position + (p.length : Int); omega,
        hW0', hwo0', hwos', hw0z', hmodeCW', hdl', hmm', hreg'⟩
      show ((writeBytes mf'.contents mf'.position.toNat p).length : Int)
          = mf'.size
      rw [writeBytes_length _ _ _ hlenfit]
      exact hl'
    have hbytes : readBytes (writtenSeq mf' p).contents
        mf.position.toNat p.length = p := by
      show readBytes (writeBytes mf'.contents mf'.position.toNat p)
          mf.position.toNat p.length = p
      rw [← hPt]
      exact readBytes_writeBytes _ _ _ hlenfit
    have hfit2 : mf.position + (p.length : Int) ≤ (writtenSeq mf' p).size := by
      show mf.position + (p.length : Int) ≤ mf'.size
      omega
    have hwin2 : 0 < mf'.windowSize →
        mf'.windowOffset ≤ mf.position ∧
        mf.position + (p.length : Int) ≤ mf'.windowOffset + dataLenInt mf' := by
      intro hWpos
      have hWb := hwinE (by omega)
      have hfW : fileOffsetToWindowOffset mf' mf'.position
          = mf'.position - mf'.windowOffset := by
        unfold fileOffsetToWindowOffset
        rw [if_neg (by omega)]
      rw [hfW] at hwinb
      exact ⟨by omega, by omega⟩
    have hra := readAt_exact (writtenSeq mf' p)
      est2 p mf.position hwf2 hpos hplen hfit2 hbytes hwin2
    rw [hfile]
    exact ⟨hra.1, hra.2⟩

/-- Witness for C1: on the concrete windowed file, `WriteAt [9,9] 5`
(which slides the window) succeeds and the read-back returns `[9,9]`;
likewise `Write [8,8]` at cursor 0. -/
theorem write_readAt_roundtrip_witness :
    (writeAt exampleRW true [9, 9] 5).error = none ∧
    (readAt (writeAt exampleRW true [9, 9] 5).file true 2 5).val = [9, 9] ∧
    (write exampleRW true [8, 8]).error = none ∧
    (readAt (write exampleRW true [8, 8]).file true 2 0).val = [8, 8] := by
  have h := write_readAt_roundtrip exampleRW true true [9, 9] 5
    (by decide) (by decide) (by decide)
  have h2 := write_readAt_roundtrip exampleRW true true [8, 8] 0
    (by decide) (by decide) (by decide)
  refine ⟨by decide, ?_, by decide, ?_⟩
  · exact (h.1 (by decide)).2.1
  · exact (h2.2 (by decide)).2

/-- Whether an event is a flush syscall (of either kind). -/
def isFlush : Event → Bool
  | .flush _ => true
  | _ => false

/-- State `exampleRW` with the dirty flag set, under the Never sync policy. -/
def exampleDirtyNever : MappedFile :=
  { exampleRW with modified := true }

/-- State `exampleRW` with the dirty flag set, under the Immediate sync
policy. -/
def exampleDirtyImm : MappedFile :=
  { exampleRW with
      modified := true
      config := { exampleRW.config with syncMode := .syncImmediate } }

/-- C2 counterexample: on a dirty windowed file under sync_policy =
Never, sliding the window (target offset 6 is outside the current window
`[0, 4)`) issues NO flush syscall at all — `msync` returns without a
syscall under `SyncNever` — contradicting the claim that the pre-slide
flush is synchronous for every policy and that Never still flushes. -/
theorem slide_dirty_never_counterexample :
    exampleDirtyNever.modified = true ∧
    exampleDirtyNever.config.syncMode = .syncNever ∧
    (slideWindow exampleDirtyNever true 6).1 = none ∧
    (slideWindow exampleDirtyNever true 6).2.1.windowOffset = 4 ∧
    ((slideWindow exampleDirtyNever true 6).2.2.filter isFlush) = [] := by
  decide

/-- C2 amended: on a dirty slide the flush issued before dissolving the
old window follows the configured sync policy — `MS_SYNC` (synchronous)
only under Immediate, `MS_ASYNC` (queued, not awaited) under Periodic and
Lazy, and no flush at all under Never — and the dirty flag is cleared in
every case. -/
theorem slide_dirty_flush_follows_policy (mf : MappedFile) (est : Bool)
    (t : Int) (hmm : mf.mmapData = true) (hdirty : mf.modified = true)
    (hW : mf.windowSize ≠ 0)
    (hout : ¬(mf.windowOffset ≤ t ∧ t < mf.windowOffset + dataLenInt mf)) :
    (slideWindow mf est t).2.1.modified = false ∧
    ((slideWindow mf est t).2.2.filter isFlush
      = match mf.config.syncMode with
        | .syncImmediate => [Event.flush .sync]
        | .syncPeriodic => [Event.flush .async]
        | .syncLazy => [Event.flush .async]
        | .syncNever => []) := by
  unfold slideWindow
  rw [if_neg hW, if_neg hout]
  cases est <;>
    cases hsm : mf.config.syncMode <;>
      simp [msyncEvents, hmm, hdirty, hsm, isFlush]

/-- Witness for the amended C2: a dirty slide under Never clears the
dirty flag and issues no flush; under Immediate it issues exactly one
synchronous flush. -/
theorem slide_dirty_flush_follows_policy_witness :
    ((slideWindow exampleDirtyNever true 6).2.1.modified = false ∧
      (slideWindow exampleDirtyNever true 6).2.2.filter isFlush = []) ∧
    ((slideWindow exampleDirtyImm true 6).2.1.modified = false ∧
      (slideWindow exampleDirtyImm true 6).2.2.filter isFlush
        = [Event.flush .sync]) := by
  have h1 := slide_dirty_flush_follows_policy exampleDirtyNever true 6
    (by decide) (by decide) (by decide) (by decide)
  have h2 := slide_dirty_flush_follows_policy exampleDirtyImm true 6
    (by decide) (by decide) (by decide) (by decide)
  exact ⟨⟨h1.1, h1.2⟩, ⟨h2.1, h2.2⟩⟩

/-- A concrete full-file (non-windowed) read-only mapping of the same
8-byte file. -/
def exampleFull : MappedFile :=
  { exampleRW with
      windowSize := 0
      dataLen := some 8
      config := { exampleRW.config with
        mode := .modeReadOnly
        mapFullFile := true
        windowSize := 0 } }

/-- Length law `(readBytes c off n).length = min n (c.length - off)`. -/
theorem readBytes_length (c : Bytes) (off n : Nat) :
    (readBytes c off n).length = min n (c.length - off) := by
  simp [readBytes, List.length_take, List.length_drop]

/-- Lemma: `ensureInWindow` with a succeeding establish oracle never fails. -/
theorem ensureInWindow_true_ok (mf : MappedFile) (t : Int) :
    ∃ mf' evs, ensureInWindow mf true t = (none, mf', evs) := by
  unfold ensureInWindow slideWindow
  split_ifs <;> first
    | exact ⟨_, _, rfl⟩
    | simp_all

/-- C3 counterexample: `ReadAt(buf[4], 2)` on the windowed 8-byte file
whose current window is `[0, 4)` copies only 2 bytes (the window ends)
and returns EndOfInput, although `2 + 4 = 6 ≤ 8 = file_size` — the code
returns `io.EOF` on every short copy, with no file-size condition. -/
theorem readAt_window_eof_counterexample :
    (readAt exampleRW true 4 2).error = some IOError.eof ∧
    (readAt exampleRW true 4 2).val.length = 2 ∧
    (2 + 4 : Int) ≤ exampleRW.size := by
  decide

/-- C3 amended: for a valid offset, `ReadAt` returns EndOfInput exactly
when fewer than `|buf|` bytes were copied from the current window — with
no condition on `off + |buf|` versus `file_size`; only in the full-file
configuration is that equivalent to `off + |buf| > file_size`. -/
theorem readAt_eof_iff_short_copy (mf : MappedFile) (pLen : Nat) (off : Int)
    (hwf : WF mf) (h0 : 0 ≤ off) (hs : off < mf.size) :
    ((readAt mf true pLen off).error = some IOError.eof ↔
      (readAt mf true pLen off).val.length < pLen) ∧
    (mf.windowSize = 0 →
      ((readAt mf true pLen off).error = some IOError.eof ↔
        mf.size < off + (pLen : Int))) := by
  obtain ⟨mf', evs, hE⟩ := ensureInWindow_true_ok mf off
  obtain ⟨hwfE, hc, hsz, hP, hcfg, hWs, hFC, hSM, hR, hwinE, hz⟩ :=
    ensureInWindow_ok_spec mf true off mf' evs hwf h0 hs hE
  have hwfK := hwf
  obtain ⟨hl, hpos, hW0, hwo0, hwos, hw0z, hmodeCW, hdl, hmm, hreg⟩ := hwfK
  have hwfE' := hwfE
  obtain ⟨hl', hpos', hW0', hwo0', hwos', hw0z', hmodeCW', hdl', hmm', hreg'⟩ :=
    hwfE'
  have hdne : ¬ mf.dataLen = none := by rw [hdl]; simp
  have hne : ¬ (off < 0 ∨ off ≥ mf.size) := by omega
  have hdli : dataLenInt mf' = expectedDataLen mf' := by
    simp [dataLenInt, hdl']
  -- the number of bytes the copy produces
  have hwoff : 0 ≤ fileOffsetToWindowOffset mf' off ∧
      dataLenInt mf' - fileOffsetToWindowOffset mf' off
        ≤ mf'.size - off := by
    unfold fileOffsetToWindowOffset
    by_cases hWz : mf'.windowSize = 0
    · rw [if_pos hWz]
      rw [hdli]
      unfold expectedDataLen
      rw [if_pos hWz]
      omega
    · rw [if_neg hWz]
      have hwin := hwinE (by omega)
      rw [hdli]
      unfold expectedDataLen
      rw [if_neg hWz]
      constructor
      · omega
      · have := min_le_right mf'.windowSize (mf'.size - mf'.windowOffset)
        omega
  have hvl : (readAt mf true pLen off).val.length
      = min pLen (dataLenInt mf' - fileOffsetToWindowOffset mf' off).toNat := by
    simp only [readAt, hE, if_neg hdne, if_neg hne]
    split_ifs <;>
      · simp only [readBytes_length]
        omega
  constructor
  · rw [hvl]
    simp only [readAt, hE, if_neg hdne, if_neg hne]
    split_ifs with hlt
    · simp only [true_iff]
      omega
    · simp
      omega
  · intro hWz
    have hWz' : mf'.windowSize = 0 := by omega
    have hfull : dataLenInt mf' - fileOffsetToWindowOffset mf' off
        = mf'.size - off := by
      unfold fileOffsetToWindowOffset
      rw [if_pos hWz']
      rw [hdli]
      unfold expectedDataLen
      rw [if_pos hWz']
    simp only [readAt, hE, if_neg hdne, if_neg hne]
    split_ifs with hlt
    · simp only [true_iff]
      rw [hfull] at hlt
      omega
    · simp
      rw [hfull] at hlt
      omega

/-- Witness for the amended C3: in the full-file configuration, a read
past the end (`ReadAt(buf[4], 6)` on the 8-byte file) copies 2 bytes and
returns EndOfInput, and the equivalence with `off + |buf| > file_size`
holds. -/
theorem readAt_eof_iff_short_copy_witness :
    (readAt exampleFull true 4 6).error = some IOError.eof ∧
    (readAt exampleFull true 4 6).val.length < 4 ∧
    exampleFull.size < 6 + (4 : Int) := by
  have h := readAt_eof_iff_short_copy exampleFull 4 6
    (by decide) (by decide) (by decide)
  exact ⟨(h.2 (by decide)).mpr (by decide), h.1.mp ((h.2 (by decide)).mpr (by decide)), by decide⟩

/-- C4 (code bug): when a slide's `munmap` succeeds but the re-mapping
`mmap` fails, the code returns the wrapped error but leaves `mf.data`
pointing at the dissolved mapping (`munmap` clears only `mf.mmapData`),
and no MappingLost error exists anywhere in the code.  A subsequent
`ReadAt` does not fail: the stale window bounds still contain offset 6,
so the code dereferences unmapped memory (in this model, the read
"succeeds"; on the real platform it faults).  The claimed behavior —
no view, and all I/O failing with MappingLost until Close — does not
exist in the code. -/
theorem slide_establish_failure_leaves_stale_view :
    (slideWindow exampleRW false 6).1 = some IOError.remapFailed ∧
    (slideWindow exampleRW false 6).2.1.dataLen = some 4 ∧
    (slideWindow exampleRW false 6).2.1.mmapData = false ∧
    (slideWindow exampleRW false 6).2.1.windowOffset = 4 ∧
    (readAt (slideWindow exampleRW false 6).2.1 true 1 6).error = none ∧
    (readAt (slideWindow exampleRW false 6).2.1 true 1 6).val = [16] := by
  decide

/-- State `exampleRW` opened read-only, with the cursor at 6. -/
def exampleRO : MappedFile :=
  { exampleRW with
      position := 6
      config := { exampleRW.config with mode := .modeReadOnly } }

/-- C5 counterexample: two write calls whose range exceeds `file_size`
but which do NOT return ShortWrite: `WriteAt` at `off = file_size`
(`8 + 1 > 8`) fails the offset validation first and returns
InvalidOffset; `Write` on a read-only mapping with `cursor + |buf| > 8`
(`6 + 3 > 8`) fails the mode check first and returns WriteToReadOnly. -/
theorem write_exceeding_not_always_shortWrite :
    (writeAt exampleRW true [7] 8).error = some IOError.invalidOffset ∧
    (8 + 1 : Int) > exampleRW.size ∧
    (write exampleRO true [7, 7, 7]).error = some IOError.writeToReadOnlyMap ∧
    exampleRO.position + (3 : Int) > exampleRO.size := by
  decide

/-- C5 amended: on a mapped file that is not read-only, a `Write` whose
range `[cursor, cursor + |buf|)` exceeds `file_size`, and a `WriteAt`
with a valid offset whose range `[O, O + |buf|)` exceeds `file_size`,
return ShortWrite with zero bytes written, issue no syscall, and leave
the entire state (contents, cursor, dirty flag, window) unchanged. -/
theorem write_exceeding_shortWrite (mf : MappedFile) (est : Bool)
    (p : Bytes) (off : Int) (hdne : mf.dataLen ≠ none)
    (hro : mf.config.mode ≠ .modeReadOnly) :
    (mf.position + (p.length : Int) > mf.size →
      (write mf est p).error = some IOError.shortWrite ∧
      (write mf est p).val = 0 ∧
      (write mf est p).file = mf ∧
      (write mf est p).events = [])
    ∧ (0 ≤ off → off < mf.size → off + (p.length : Int) > mf.size →
      (writeAt mf est p off).error = some IOError.shortWrite ∧
      (writeAt mf est p off).val = 0 ∧
      (writeAt mf est p off).file = mf ∧
      (writeAt mf est p off).events = []) := by
  constructor
  · intro hex
    unfold write
    rw [if_neg hdne, if_neg hro, if_pos hex]
    exact ⟨rfl, rfl, rfl, rfl⟩
  · intro h0 hs hex
    unfold writeAt
    rw [if_neg hdne, if_neg hro, if_neg (by omega : ¬ (off < 0 ∨ off ≥ mf.size)),
      if_pos hex]
    exact ⟨rfl, rfl, rfl, rfl⟩

/-- Witness for the amended C5: a 9-byte `Write` and a `WriteAt` of 2
bytes at offset 7 on the 8-byte file both return ShortWrite and leave
the state untouched. -/
theorem write_exceeding_shortWrite_witness :
    (write exampleRW true [1, 1, 1, 1, 1, 1, 1, 1, 1]).error
      = some IOError.shortWrite ∧
    (write exampleRW true [1, 1, 1, 1, 1, 1, 1, 1, 1]).file = exampleRW ∧
    (writeAt exampleRW true [9, 9] 7).error = some IOError.shortWrite ∧
    (writeAt exampleRW true [9, 9] 7).file = exampleRW := by
  have h1 := write_exceeding_shortWrite exampleRW true
    [1, 1, 1, 1, 1, 1, 1, 1, 1] 7 (by decide) (by decide)
  have h2 := write_exceeding_shortWrite exampleRW true [9, 9] 7
    (by decide) (by decide)
  have ha := h1.1 (by decide)
  have hb := h2.2 (by decide) (by decide) (by decide)
  exact ⟨ha.1, ha.2.2.1, hb.1, hb.2.2.1⟩

/-- C6 counterexample: `Sync` on a dirty read-write mapping under
sync_policy = Never succeeds but issues NO flush syscall (let alone a
synchronous one), and the dirty flag is still set afterwards — the code
routes `Sync` through `msync`, which elides the syscall under `SyncNever`,
and never clears `mf.modified`. -/
theorem sync_dirty_never_counterexample :
    exampleDirtyNever.modified = true ∧
    exampleDirtyNever.config.mode ≠ .modeReadOnly ∧
    (syncOp exampleDirtyNever).error = none ∧
    (syncOp exampleDirtyNever).events = [] ∧
    (syncOp exampleDirtyNever).file.modified = true := by
  decide

/-- C6 amended: `Sync` on a mapped file reaches `msync` exactly when the
dirty flag is set and the mode is not ReadOnly, but the flush issued
follows the sync policy — synchronous only under Immediate, asynchronous
under Periodic and Lazy, none under Never — and `Sync` never mutates the
state: in particular the dirty flag is NOT cleared on success. -/
theorem sync_flush_follows_policy (mf : MappedFile)
    (hdne : mf.dataLen ≠ none) (hmm : mf.mmapData = true) :
    (syncOp mf).error = none ∧
    (syncOp mf).file = mf ∧
    ((syncOp mf).events =
      if mf.config.mode = .modeReadOnly then []
      else if mf.modified = false then []
      else match mf.config.syncMode with
        | .syncImmediate => [Event.flush .sync]
        | .syncPeriodic => [Event.flush .async]
        | .syncLazy => [Event.flush .async]
        | .syncNever => []) := by
  refine ⟨rfl, rfl, ?_⟩
  unfold syncOp syncLockedEvents msyncEvents
  rw [if_neg hdne]
  by_cases hro : mf.config.mode = .modeReadOnly
  · rw [if_pos hro, if_pos hro]
  rw [if_neg hro, if_neg hro]
  by_cases hmod : mf.modified = false
  · rw [if_pos hmod, if_pos hmod]
  rw [if_neg hmod, if_neg hmod, if_neg (by rw [hmm]; simp)]

/-- Witness for the amended C6: on a dirty Immediate-mode mapping, `Sync`
issues exactly one synchronous flush and leaves the state (including the
dirty flag) unchanged. -/
theorem sync_flush_follows_policy_witness :
    (syncOp exampleDirtyImm).events = [Event.flush .sync] ∧
    (syncOp exampleDirtyImm).file = exampleDirtyImm ∧
    (syncOp exampleDirtyImm).file.modified = true := by
  have h := sync_flush_follows_policy exampleDirtyImm (by decide) (by decide)
  exact ⟨h.2.2, h.2.1, by decide⟩

/-- Lemma: `ensureInWindow` never moves the cursor or changes the file size —
on any branch, success or failure. -/
theorem ensureInWindow_pos_size (mf : MappedFile) (est : Bool) (t : Int) :
    (ensureInWindow mf est t).2.1.position = mf.position ∧
    (ensureInWindow mf est t).2.1.size = mf.size := by
  unfold ensureInWindow slideWindow
  split_ifs <;> exact ⟨rfl, rfl⟩

/-- Lemma: `ReadAt` never moves the cursor. -/
theorem readAt_preserves_position (mf : MappedFile) (est : Bool)
    (pLen : Nat) (off : Int) :
    (readAt mf est pLen off).file.position = mf.position := by
  unfold readAt
  by_cases hd : mf.dataLen = none
  · rw [if_pos hd]
  rw [if_neg hd]
  by_cases hv : off < 0 ∨ off ≥ mf.size
  · rw [if_pos hv]
  rw [if_neg hv]
  rcases hE : ensureInWindow mf est off with ⟨e, mf', evs⟩
  have hpp : mf'.position = mf.position := by
    have h := ensureInWindow_pos_size mf est off
    rw [hE] at h
    exact h.1
  cases e with
  | some e' => exact hpp
  | none =>
    simp only []
    split_ifs <;> exact hpp

/-- Lemma: `WriteAt` never moves the cursor. -/
theorem writeAt_preserves_position (mf : MappedFile) (est : Bool)
    (p : Bytes) (off : Int) :
    (writeAt mf est p off).file.position = mf.position := by
  unfold writeAt
  by_cases hd : mf.dataLen = none
  · rw [if_pos hd]
  rw [if_neg hd]
  by_cases hro : mf.config.mode = .modeReadOnly
  · rw [if_pos hro]
  rw [if_neg hro]
  by_cases hv : off < 0 ∨ off ≥ mf.size
  · rw [if_pos hv]
  rw [if_neg hv]
  by_cases hex : off + (p.length : Int) > mf.size
  · rw [if_pos hex]
  rw [if_neg hex]
  rcases hE : ensureInWindow mf est off with ⟨e, mf', evs⟩
  have hpp : mf'.position = mf.position := by
    have h := ensureInWindow_pos_size mf est off
    rw [hE] at h
    exact h.1
  cases e with
  | some e' => exact hpp
  | none =>
    simp only []
    split_ifs <;> exact hpp

/-- Lemma: `Close` never moves the cursor. -/
theorem close_preserves_position (mf : MappedFile) :
    (close mf).file.position = mf.position := by
  by_cases hsm : mf.hasSyncManager <;>
    by_cases hdn : mf.dataLen = none <;>
      simp [close, hsm, hdn]

/-- A failed `Write` leaves the cursor where it was; a successful one
advances it by `|p|`, within the file (the size check passed). -/
theorem write_position_cases (mf : MappedFile) (est : Bool) (p : Bytes) :
    (write mf est p).file.position = mf.position ∨
    ((write mf est p).error = none ∧
      (write mf est p).file.position = mf.position + p.length ∧
      mf.position + (p.length : Int) ≤ mf.size) := by
  unfold write
  by_cases hd : mf.dataLen = none
  · rw [if_pos hd]; left; rfl
  rw [if_neg hd]
  by_cases hro : mf.config.mode = .modeReadOnly
  · rw [if_pos hro]; left; rfl
  rw [if_neg hro]
  by_cases hex : mf.position + (p.length : Int) > mf.size
  · rw [if_pos hex]; left; rfl
  rw [if_neg hex]
  rcases hE : ensureInWindow mf est mf.position with ⟨e, mf', evs⟩
  have hpp : mf'.position = mf.position := by
    have h := ensureInWindow_pos_size mf est mf.position
    rw [hE] at h
    exact h.1
  cases e with
  | some e' => left; exact hpp
  | none =>
    simp only []
    split_ifs with hshort
    · left; exact hpp
    all_goals
      right
      refine ⟨rfl, ?_, by omega⟩
      show mf'.position + (p.length : Int) = mf.position + (p.length : Int)
      rw [hpp]

/-- A failed `Seek` leaves the cursor where it was; a successful one sets
a nonnegative cursor (with no upper bound). -/
theorem seek_position_cases (mf : MappedFile) (offset : Int) (whence : Nat) :
    (seek mf offset whence).file.position = mf.position ∨
    ((seek mf offset whence).error = none ∧
      0 ≤ (seek mf offset whence).file.position) := by
  unfold seek
  by_cases hd : mf.dataLen = none
  · rw [if_pos hd]; left; rfl
  rw [if_neg hd]
  by_cases h0 : whence = seekStart
  · simp only [if_pos h0]
    by_cases hneg : offset < 0
    · rw [if_pos hneg]; left; rfl
    · rw [if_neg hneg]
      refine Or.inr ⟨rfl, ?_⟩
      show 0 ≤ offset
      omega
  simp only [if_neg h0]
  by_cases h1 : whence = seekCurrent
  · simp only [if_pos h1]
    by_cases hneg : mf.position + offset < 0
    · rw [if_pos hneg]; left; rfl
    · rw [if_neg hneg]
      refine Or.inr ⟨rfl, ?_⟩
      show 0 ≤ mf.position + offset
      omega
  simp only [if_neg h1]
  by_cases h2 : whence = seekEnd
  · simp only [if_pos h2]
    by_cases hneg : mf.size + offset < 0
    · rw [if_pos hneg]; left; rfl
    · rw [if_neg hneg]
      refine Or.inr ⟨rfl, ?_⟩
      show 0 ≤ mf.size + offset
      omega
  simp only [if_neg h2]
  exact Or.inl trivial

/-- A successful `Read` leaves the cursor inside `[0, size]` (given a
well-formed state); a failed or empty one leaves it in place. -/
theorem read_position_cases (mf : MappedFile) (est : Bool) (pLen : Nat)
    (hwf : WF mf) :
    (read mf est pLen).file.position = mf.position ∨
    (0 ≤ (read mf est pLen).file.position ∧
      (read mf est pLen).file.position ≤ mf.size) := by
  have hwfK := hwf
  obtain ⟨hl, hpos, hW0, hwo0, hwos, hw0z, hmodeCW, hdl, hmm, hreg⟩ := hwfK
  unfold read
  by_cases hd : mf.dataLen = none
  · rw [if_pos hd]; left; rfl
  rw [if_neg hd]
  by_cases heof : mf.position ≥ mf.size
  · rw [if_pos heof]; left; rfl
  rw [if_neg heof]
  rcases hE : ensureInWindow mf est mf.position with ⟨e, mf', evs⟩
  cases e with
  | some e' =>
    left
    have h := ensureInWindow_pos_size mf est mf.position
    rw [hE] at h
    exact h.1
  | none =>
    right
    obtain ⟨hwfE, hc, hs, hP, hcfg, hWs, hFC, hSM, hR, hwinE, hz⟩ :=
      ensureInWindow_ok_spec mf est mf.position mf' evs hwf hpos (by omega) hE
    have hwfE' := hwfE
    obtain ⟨hl', hpos', hW0', hwo0', hwos', hw0z', hmodeCW', hdl', hmm', hreg'⟩ :=
      hwfE'
    have hdli : dataLenInt mf'
        = if mf'.windowSize = 0 then mf'.size
          else min mf'.windowSize (mf'.size - mf'.windowOffset) := by
      simp [dataLenInt, hdl', expectedDataLen]
    constructor
    · show 0 ≤ mf'.position + (min pLen
        (dataLenInt mf' - fileOffsetToWindowOffset mf' mf'.position).toNat : Nat)
      omega
    · show mf'.position + (min pLen
        (dataLenInt mf' - fileOffsetToWindowOffset mf' mf'.position).toNat : Nat)
        ≤ mf.size
      by_cases hWz : mf'.windowSize = 0
      · rw [if_pos hWz] at hdli
        have hfW : fileOffsetToWindowOffset mf' mf'.position = mf'.position := by
          unfold fileOffsetToWindowOffset
          rw [if_pos hWz]
        rw [hfW]
        omega
      · rw [if_neg hWz] at hdli
        have hwin := hwinE (by omega)
        have hfW : fileOffsetToWindowOffset mf' mf'.position
            = mf'.position - mf'.windowOffset := by
          unfold fileOffsetToWindowOffset
          rw [if_neg hWz]
        rw [hfW]
        omega

/-- The public I/O surface of a `MappedFile`, as abstract operations. -/
inductive PubOp
  | opRead (pLen : Nat) (est : Bool)
  | opReadAt (pLen : Nat) (off : Int) (est : Bool)
  | opWrite (p : Bytes) (est : Bool)
  | opWriteAt (p : Bytes) (off : Int) (est : Bool)
  | opSeek (offset : Int) (whence : Nat)
  | opSync
  | opClose

/-- The state after one public operation. -/
def applyOp (mf : MappedFile) : PubOp → MappedFile
  | .opRead pLen est => (read mf est pLen).file
  | .opReadAt pLen off est => (readAt mf est pLen off).file
  | .opWrite p est => (write mf est p).file
  | .opWriteAt p off est => (writeAt mf est p off).file
  | .opSeek offset whence => (seek mf offset whence).file
  | .opSync => (syncOp mf).file
  | .opClose => (close mf).file

/-- C7 counterexample: a `Seek(100, Start)` on the 8-byte file succeeds
and leaves the cursor at 100 > 8 = file_size — the code only rejects
negative positions, so a successful Seek CAN leave the cursor strictly
greater than file_size. -/
theorem seek_beyond_size_counterexample :
    (seek exampleRW 100 seekStart).error = none ∧
    (seek exampleRW 100 seekStart).file.position = 100 ∧
    exampleRW.size = 8 := by
  decide

/-- C7 amended: after any public operation on a well-formed state the
cursor is nonnegative, and every operation except `Seek` keeps
`cursor ≤ file_size`; only `Seek` can move the cursor past the end
(Go `os.File` semantics), which the counterexample exhibits. -/
theorem cursor_bounds (mf : MappedFile) (op : PubOp) (hwf : WF mf) :
    0 ≤ (applyOp mf op).position ∧
    (mf.position ≤ mf.size → (∀ o w, op ≠ .opSeek o w) →
      (applyOp mf op).position ≤ mf.size) := by
  have hwfK := hwf
  obtain ⟨hl, hpos, hW0, hwo0, hwos, hw0z, hmodeCW, hdl, hmm, hreg⟩ := hwfK
  cases op with
  | opRead pLen est =>
    rcases read_position_cases mf est pLen hwf with h | h
    · unfold applyOp
      rw [h]
      exact ⟨hpos, fun hle _ => hle⟩
    · unfold applyOp
      exact ⟨h.1, fun _ _ => h.2⟩
  | opReadAt pLen off est =>
    have h := readAt_preserves_position mf est pLen off
    unfold applyOp
    rw [h]
    exact ⟨hpos, fun hle _ => hle⟩
  | opWrite p est =>
    rcases write_position_cases mf est p with h | h
    · unfold applyOp
      rw [h]
      exact ⟨hpos, fun hle _ => hle⟩
    · unfold applyOp
      rw [h.2.1]
      exact ⟨by omega, fun _ _ => by omega⟩
  | opWriteAt p off est =>
    have h := writeAt_preserves_position mf est p off
    unfold applyOp
    rw [h]
    exact ⟨hpos, fun hle _ => hle⟩
  | opSeek offset whence =>
    rcases seek_position_cases mf offset whence with h | h
    · unfold applyOp
      rw [h]
      exact ⟨hpos, fun hle hno => absurd rfl (hno offset whence)⟩
    · unfold applyOp
      exact ⟨h.2, fun hle hno => absurd rfl (hno offset whence)⟩
  | opSync =>
    exact ⟨hpos, fun hle _ => hle⟩
  | opClose =>
    have h := close_preserves_position mf
    unfold applyOp
    rw [h]
    exact ⟨hpos, fun hle _ => hle⟩

/-- Witness for the amended C7: a 3-byte `Read` on the concrete windowed
file leaves the cursor at 3, inside `[0, 8]`. -/
theorem cursor_bounds_witness :
    0 ≤ (applyOp exampleRW (.opRead 3 true)).position ∧
    (applyOp exampleRW (.opRead 3 true)).position ≤ exampleRW.size := by
  have h := cursor_bounds exampleRW (.opRead 3 true) (by decide)
  refine ⟨h.1, h.2 (by decide) ?_⟩
  intro o w hc
  simp at hc

/-- A dirty, periodically-synced, registered mapped file. -/
def exampleReg : MappedFile :=
  { exampleRW with
      modified := true
      hasSyncManager := true
      registered := true
      config := { exampleRW.config with syncMode := .syncPeriodic } }

/-- C8 counterexample: after a first `Close` succeeds, a second `Close`
is not a no-op returning success — it skips sync and unmap but invokes
the underlying handle's `Close` again (the `fileCloseCall` event) and
returns the handle's double-close error. -/
theorem second_close_not_noop_counterexample :
    (close exampleReg).error = none ∧
    (close (close exampleReg).file).error = some IOError.fileAlreadyClosed ∧
    (close (close exampleReg).file).events = [Event.fileCloseCall] := by
  decide

/-- C8 amended: the first `Close` of a live mapped file leaves no
mapping, no raw mapping, no scheduler registration, and a closed handle,
and returns success; a second `Close` leaves the state unchanged but
calls the underlying handle's `Close` again and returns its
already-closed error instead of success. -/
theorem close_release_and_second_close (mf : MappedFile) (hwf : WF mf)
    (hopen : mf.fileClosed = false) :
    (close mf).error = none ∧
    (close mf).file.dataLen = none ∧
    (close mf).file.mmapData = false ∧
    (close mf).file.registered = false ∧
    (close mf).file.fileClosed = true ∧
    (close (close mf).file).file = (close mf).file ∧
    (close (close mf).file).error = some IOError.fileAlreadyClosed ∧
    (close (close mf).file).events = [Event.fileCloseCall] := by
  obtain ⟨hl, hpos, hW0, hwo0, hwos, hw0z, hmodeCW, hdl, hmm, hreg⟩ := hwf
  obtain ⟨c, sz, pos, ws, wo, dl, mm, cfg, md, hs, rg, fc⟩ := mf
  simp only at hopen hdl hmm hreg
  subst hopen
  subst hmm
  have hdln : dl ≠ none := by rw [hdl]; simp
  cases hs with
  | false =>
    have hrg : rg = false := by
      cases rg
      · rfl
      · exact absurd (hreg rfl) (by simp)
    subst hrg
    cases md <;> simp [close, hdln]
  | true =>
    cases rg <;> cases md <;> simp [close, hdln]

/-- Witness for the amended C8 at the concrete registered file. -/
theorem close_release_and_second_close_witness :
    (close exampleReg).error = none ∧
    (close exampleReg).file.registered = false ∧
    (close exampleReg).file.dataLen = none ∧
    (close (close exampleReg).file).file = (close exampleReg).file := by
  have h := close_release_and_second_close exampleReg (by decide) (by decide)
  exact ⟨h.1, h.2.2.2.1, h.2.1, h.2.2.2.2.2.1⟩

/-- C9: a `Seek` that fails — invalid whence, or a negative computed
position — leaves the entire `MappedFile` unchanged, in particular the
cursor, so a subsequent `Read` continues from the position that was
current before the failed call. -/
theorem seek_failure_preserves_state (mf : MappedFile) (offset : Int)
    (whence : Nat) (hdne : mf.dataLen ≠ none)
    (herr : (seek mf offset whence).error ≠ none) :
    (seek mf offset whence).file = mf ∧
    (seek mf offset whence).file.position = mf.position := by
  have hfile : (seek mf offset whence).file = mf := by
    unfold seek at herr ⊢
    rw [if_neg hdne] at herr ⊢
    by_cases h0 : whence = seekStart
    · simp only [if_pos h0] at herr ⊢
      by_cases hneg : offset < 0
      · rw [if_pos hneg]
      · rw [if_neg hneg] at herr; simp at herr
    · simp only [if_neg h0] at herr ⊢
      by_cases h1 : whence = seekCurrent
      · simp only [if_pos h1] at herr ⊢
        by_cases hneg : mf.position + offset < 0
        · rw [if_pos hneg]
        · rw [if_neg hneg] at herr; simp at herr
      · simp only [if_neg h1] at herr ⊢
        by_cases h2 : whence = seekEnd
        · simp only [if_pos h2] at herr ⊢
          by_cases hneg : mf.size + offset < 0
          · rw [if_pos hneg]
          · rw [if_neg hneg] at herr; simp at herr
        · simp only [if_neg h2]
  exact ⟨hfile, by rw [hfile]⟩

/-- Witness for C9: an invalid whence (7) and a negative target
(`Seek(-9, Start)`) both fail and leave the concrete file untouched. -/
theorem seek_failure_preserves_state_witness :
    (seek exampleRW 3 7).error = some IOError.invalidWhence ∧
    (seek exampleRW 3 7).file = exampleRW ∧
    (seek exampleRW (-9) seekStart).error = some IOError.invalidOffset ∧
    (seek exampleRW (-9) seekStart).file = exampleRW := by
  have h1 := seek_failure_preserves_state exampleRW 3 7
    (by decide) (by decide)
  have h2 := seek_failure_preserves_state exampleRW (-9) seekStart
    (by decide) (by decide)
  exact ⟨by decide, h1.1, by decide, h2.1⟩

/-- Once a `syncManager` is stopped with an empty set, any sequence of
`register` / `unregister` / `stop` calls keeps the set empty and the
manager stopped. -/
theorem smRun_stopped_empty (ops : List SMOp) :
    ∀ sm : SyncManager, sm.stopped = true → sm.files = [] →
      (smRun sm ops).stopped = true ∧ (smRun sm ops).files = [] := by
  induction ops with
  | nil =>
    intro sm h1 h2
    exact ⟨h1, h2⟩
  | cons op ops ih =>
    intro sm h1 h2
    refine ih (smApply sm op) ?_ ?_ <;>
      cases op <;>
        simp [smApply, smRegister, smUnregister, smStop, h1, h2]

/-- C10: after `stop()` runs on a live (not yet stopped) manager, the
registration set is empty and stays empty under every later sequence of
calls — later `register` calls are no-ops — so `syncAll` finds no files
to sync ever again. -/
theorem stop_clears_forever (sm : SyncManager) (ops : List SMOp)
    (h : sm.stopped = false) :
    (smRun (smApply sm .stop) ops).files = [] ∧
    (smRun (smApply sm .stop) ops).stopped = true ∧
    syncAllTargets (smRun (smApply sm .stop) ops) = [] := by
  have hstop : smApply sm .stop = ⟨[], true⟩ := by
    simp [smApply, smStop, h]
  rw [hstop]
  have h2 := smRun_stopped_empty ops ⟨[], true⟩ rfl rfl
  exact ⟨h2.2, h2.1, h2.2⟩

/-- Witness for C10: stopping a manager holding file 3 and then
registering 5 and 7 (and unregistering 3) leaves the set empty. -/
theorem stop_clears_forever_witness :
    (smRun (smApply ⟨[3], false⟩ .stop)
      [.register 5, .unregister 3, .register 7]).files = [] ∧
    syncAllTargets (smRun (smApply ⟨[3], false⟩ .stop)
      [.register 5, .unregister 3, .register 7]) = [] := by
  have h := stop_clears_forever ⟨[3], false⟩
    [.register 5, .unregister 3, .register 7] (by decide)
  exact ⟨h.1, h.2.2⟩

end Memmapfs
